import Mathlib

/-!
Verification of the audio batch-conversion utility
(src/audio_converter_Streamlit.py) against its specification.

The program is shallowly embedded:

- byte payloads are lists of naturals;
- the filesystem is an association list from paths to payloads, where the
  most recent write for a path shadows older ones (fsGet reads the first
  matching entry, fsSet prepends);
- the external transcoding tool (an opaque black box per the spec) and the
  fallibility of temp-file writes are an oracle record Env: runTool returns
  either a raised-exception message or an exit status, an error-stream text
  and the tool-modified filesystem; writeFails optionally raises on a write,
  otherwise the write stores exactly the given bytes;
- pathlib semantics used by the code (Path.stem, Path.name, the slash join
  on an already normalised directory) are modelled character by character.

All functions are total, matching the Python code whose per-item exceptions
are caught and turned into data.
-/

namespace AudioConv

/-- Byte payload of an uploaded or produced file. -/
abbrev Bytes := List Nat

/-- Filesystem as an association list; the first entry for a path wins. -/
abbrev Fs := List (String × Bytes)

/-- Read a path: first matching entry, mirroring most-recent-write-wins. -/
def fsGet (fs : Fs) (p : String) : Option Bytes :=
  (fs.find? (fun e => e.1 == p)).map Prod.snd

/-- Write a path: prepend, shadowing any earlier entry for the same path. -/
def fsSet (fs : Fs) (p : String) (b : Bytes) : Fs :=
  (p, b) :: fs

/-- Joining a normalised directory path with a file name, as str(Path(dir) / name)
behaves on the normalised temp-directory paths the program uses. -/
def pathJoin (dir file : String) : String :=
  dir ++ "/" ++ file

/-- Characters after the last slash, i.e. Path(p).name / os.path.basename on the
normalised slash-separated paths the program builds. -/
def basename (p : String) : String :=
  String.mk (p.data.foldl (fun acc c => if c = '/' then [] else acc ++ [c]) [])

/-- Index of the last dot in a character list, as str.rfind in CPython pathlib. -/
def lastDotIdxAux : List Char → Nat → Option Nat → Option Nat
  | [], _, acc => acc
  | c :: cs, i, acc => lastDotIdxAux cs (i + 1) (if c = '.' then some i else acc)

/-- Index of the last dot, if any. -/
def lastDotIdx (cs : List Char) : Option Nat :=
  lastDotIdxAux cs 0 none

/-- CPython pathlib PurePath.stem applied to a bare file name: drop the final
suffix when the last dot is neither the first nor the last character. -/
def pyStem (name : String) : String :=
  let cs := name.data
  match lastDotIdx cs with
  | none => name
  | some i => if 0 < i ∧ i < cs.length - 1 then String.mk (cs.take i) else name

/-- Result of a completed tool process: exit status and error-stream text
(subprocess.run with capture_output and text). -/
structure ToolResult where
  returncode : Int
  stderr : String
deriving DecidableEq

/-- Oracle for the effects the program cannot determine itself: the external
tool and the possibility that a temp-file write raises.
runTool maps a command line and the current filesystem to either a raised
exception message or a completed ToolResult together with the filesystem as
the black-box tool left it. writeFails returns some message when the write of
the given bytes to the given path raises; when it returns none the write
succeeds and stores exactly those bytes. -/
structure Env where
  runTool : List String → Fs → Except String (ToolResult × Fs)
  writeFails : String → Bytes → Fs → Option String

/-- The triple (success flag, output path, error message) returned by
convert_to_m4a, lines 71, 73 and 76 of the source. -/
structure ConvResult where
  success : Bool
  output : Option String
  error : Option String
deriving DecidableEq

/-- Output path derived in convert_to_m4a line 49:
Path(output_dir) / (input stem ++ ".m4a"). -/
def output_path_for (output_dir input_file_path : String) : String :=
  pathJoin output_dir (pyStem (basename input_file_path) ++ ".m4a")

/-- The exact argument list built at lines 52-60 of the source. -/
def build_cmd (ffmpeg_path input_file_path quality output_path : String) : List String :=
  [ffmpeg_path, "-i", input_file_path, "-c:a", "aac", "-b:a", quality,
   "-movflags", "+faststart", "-y", output_path]

/-- Dispatch on the outcome of subprocess.run, lines 63-76: zero exit status
yields the success triple, nonzero yields the stderr text, a raised exception
is caught and its message returned; the filesystem is as the tool left it
(unchanged when the process could not run). -/
def handle_run (res : Except String (ToolResult × Fs)) (output_path : String) (fs : Fs) :
    ConvResult × Fs :=
  match res with
  | .ok (r, fs2) =>
      if r.returncode = 0 then (⟨true, some output_path, none⟩, fs2)
      else (⟨false, none, some r.stderr⟩, fs2)
  | .error e => (⟨false, none, some e⟩, fs)

/-- convert_to_m4a, lines 34-76: build the output path and the command line,
run the tool, and translate the result into the triple. -/
def convert_to_m4a (env : Env) (input_file_path output_dir quality ffmpeg_path : String)
    (fs : Fs) : ConvResult × Fs :=
  let output_path := output_path_for output_dir input_file_path
  handle_run (env.runTool (build_cmd ffmpeg_path input_file_path quality output_path) fs)
    output_path fs

/-- create_zip_file, lines 78-88: one deflate entry per listed path that still
exists, stored under its base name with the file bytes; missing paths are
skipped. The archive is modelled as its ordered entry list, entry bytes being
the pre-compression content that deflate round-trips losslessly. -/
def create_zip_file (fs : Fs) (file_paths : List String) : List (String × Bytes) :=
  file_paths.filterMap (fun p => (fsGet fs p).map (fun b => (basename p, b)))

/-- Candidate tool locations probed by check_ffmpeg, lines 17-23. -/
def ffmpeg_paths : List String :=
  ["ffmpeg", "../ffmpeg.exe", "../ffmpeg", "../ffmpeg/bin/ffmpeg.exe", "../ffmpeg/bin/ffmpeg"]

/-- check_ffmpeg, lines 15-32: try each candidate with the version query and
return the first whose invocation succeeds, else none. The argument ok tells
whether running a candidate with the version flag exits successfully. -/
def check_ffmpeg (ok : String → Bool) : Option String :=
  ffmpeg_paths.find? ok

/-- One uploaded item: a name and its byte payload. -/
structure Item where
  name : String
  data : Bytes
deriving DecidableEq

/-- Per-item outcome as displayed and tallied by the batch loop. -/
inductive Outcome where
  | success (output_path : String)
  | failure (msg : String)
deriving DecidableEq

/-- Error string format used by both append sites, lines 205 and 209. -/
def itemError (name msg : String) : String :=
  "x " ++ name ++ ": " ++ msg

/-- Python f-string rendering of an optional diagnostic. -/
def optMsg : Option String → String
  | some s => s
  | none => "None"

/-- Output path carried by a success triple; the invariant proved below shows
the default is never read. -/
def optPath (o : Option String) : String :=
  o.getD ""

/-- Payload carried by an existing file; the hypothesis of the download
theorem shows the default is never read. -/
def optBytes (o : Option Bytes) : Bytes :=
  o.getD []

/-- Path of a success outcome, used to rebuild the converted_files list. -/
def successPath : Outcome → Option String
  | .success p => some p
  | .failure _ => none

/-- Message of a failure outcome, used to rebuild the errors list. -/
def failureMsg : Outcome → Option String
  | .success _ => none
  | .failure m => some m

/-- One iteration of the batch loop, lines 187-211: write the upload to the
temp input path (a raised exception becomes a failure outcome and leaves the
filesystem unchanged), then convert; a success appends the output path, a
failure the formatted diagnostic. -/
def processItem (env : Env) (quality ffmpeg_path temp_input_dir temp_output_dir : String)
    (fs : Fs) (item : Item) : Outcome × Fs :=
  let input_file_path := pathJoin temp_input_dir item.name
  match env.writeFails input_file_path item.data fs with
  | some e => (.failure (itemError item.name e), fs)
  | none =>
      let fs1 := fsSet fs input_file_path item.data
      let r := convert_to_m4a env input_file_path temp_output_dir quality ffmpeg_path fs1
      if r.1.success then (.success (optPath r.1.output), r.2)
      else (.failure (itemError item.name (optMsg r.1.error)), r.2)

/-- The loop of convert_files, lines 181-211, threading the filesystem and
recording for the item at index i the progress value (i+1)/total set at line
183 together with the outcome of that item. -/
def runBatch (env : Env) (quality ffmpeg_path temp_input_dir temp_output_dir : String)
    (total_files : Nat) : Nat → Fs → List Item → List (ℚ × Outcome) × Fs
  | _, fs, [] => ([], fs)
  | i, fs, item :: rest =>
      let pr : ℚ := ((i : ℚ) + 1) / (total_files : ℚ)
      let step := processItem env quality ffmpeg_path temp_input_dir temp_output_dir fs item
      let rec2 := runBatch env quality ffmpeg_path temp_input_dir temp_output_dir total_files
        (i + 1) step.2 rest
      ((pr, step.1) :: rec2.1, rec2.2)

/-- Aggregate state of one batch run, as observable at the end of
convert_files: per-item outcomes in input order, the converted_files and
errors lists, the logged progress values and the final filesystem. -/
structure BatchResult where
  outcomes : List Outcome
  converted_files : List String
  errors : List String
  progressLog : List ℚ
  fs : Fs
deriving DecidableEq

/-- convert_files, lines 162-228: make the input and output subdirectories of
the scoped temp directory, loop over the uploads, and collect the sequential
appends of output paths and error strings, which are exactly the success
paths and the failure messages of the ordered outcome list. -/
def convert_files (env : Env) (uploaded_files : List Item) (quality ffmpeg_path temp_dir : String)
    (fs0 : Fs) : BatchResult :=
  let temp_input_dir := pathJoin temp_dir "input"
  let temp_output_dir := pathJoin temp_dir "output"
  let total_files := uploaded_files.length
  let run := runBatch env quality ffmpeg_path temp_input_dir temp_output_dir total_files 0 fs0
    uploaded_files
  let outcomes := run.1.map Prod.snd
  { outcomes := outcomes
    converted_files := outcomes.filterMap successPath
    errors := outcomes.filterMap failureMsg
    progressLog := run.1.map Prod.fst
    fs := run.2 }

/-- Final download offered at lines 231-251. -/
inductive Download where
  | noDownload
  | single (file_name : String) (data : Bytes) (mime : String)
  | zipArchive (file_name : String) (entries : List (String × Bytes)) (mime : String)
deriving DecidableEq

/-- Download dispatch, lines 231-251: nothing converted yields no download
section; exactly one converted file is offered raw under its base name with
mime audio/mp4; several are zipped as converted_audio_files.zip with mime
application/zip. -/
def downloadOf (r : BatchResult) : Download :=
  match r.converted_files with
  | [] => .noDownload
  | [p] => .single (basename p) (optBytes (fsGet r.fs p)) "audio/mp4"
  | _ => .zipArchive "converted_audio_files.zip" (create_zip_file r.fs r.converted_files)
      "application/zip"

/-- Character-list test that the first string is an initial segment of the
second, i.e. that a path lies under a directory path. -/
def strStarts : List Char → List Char → Bool
  | [], _ => true
  | _ :: _, [] => false
  | a :: as, b :: bs => a == b && strStarts as bs

/-- Whether a path lies in the tree rooted at the temp directory. -/
def underDir (temp_dir p : String) : Bool :=
  strStarts temp_dir.data p.data

/-- Removal of the scoped temporary tree, the exit action of the
tempfile.TemporaryDirectory context manager at line 166, which runs on every
exit path of the with block. -/
def cleanupTempDir (temp_dir : String) (fs : Fs) : Fs :=
  fs.filter (fun e => !(underDir temp_dir e.1))

/-- A whole batch session: convert_files runs inside the with block, and the
temporary tree is removed when the block exits. The filesystem field is the
one visible after the block. -/
def convert_files_session (env : Env) (uploaded_files : List Item)
    (quality ffmpeg_path temp_dir : String) (fs0 : Fs) : BatchResult :=
  let r := convert_files env uploaded_files quality ffmpeg_path temp_dir fs0
  { r with fs := cleanupTempDir temp_dir r.fs }

/-- Fatal message shown at line 130 when no tool candidate works. -/
def no_ffmpeg_error : String :=
  "x FFmpeg not found"

/-- Installation guidance shown at lines 131-136. -/
def install_guidance : String :=
  "Install FFmpeg: Windows ffmpeg.org/download.html; macOS brew install ffmpeg; Ubuntu sudo apt install ffmpeg"

/-- Result of the main workflow: either the fatal tool-missing state, reached
before the upload and convert surface, or a completed batch. -/
inductive MainResult where
  | fatalToolMissing (errorMsg guidance : String)
  | completed (result : BatchResult)
deriving DecidableEq

/-- main, lines 90-160, restricted to its core control flow: locate the tool;
when none is found show the fatal error with installation guidance and return
before the upload widget, so no conversion runs; otherwise run the batch with
the located tool. -/
def main_run (ok : String → Bool) (env : Env) (uploaded_files : List Item)
    (quality temp_dir : String) (fs0 : Fs) : MainResult :=
  match check_ffmpeg ok with
  | none => .fatalToolMissing no_ffmpeg_error install_guidance
  | some p => .completed (convert_files env uploaded_files quality p temp_dir fs0)

/-! Concrete oracle environments used to exercise the theorems. -/

/-- A tool that always reports exit status zero but writes nothing. -/
def ghostTool : Env where
  runTool := fun _ fs => .ok (⟨0, ""⟩, fs)
  writeFails := fun _ _ _ => none

/-- A tool whose invocation always raises. -/
def failTool : Env where
  runTool := fun _ _ => .error "boom"
  writeFails := fun _ _ _ => none

/-- Last element of the command line, which build_cmd places the output path at. -/
def lastArg (cmd : List String) : String :=
  cmd.getLastD ""

/-- A conforming tool: every invocation exits with status zero after writing
bytes (chosen by the parameter from the command line) to the output path. -/
def goodTool (out : List String → Bytes) : Env where
  runTool := fun cmd fs => .ok (⟨0, ""⟩, fsSet fs (lastArg cmd) (out cmd))
  writeFails := fun _ _ _ => none

/-- Whether a file name is free of slashes, so that it is a single path
component. -/
def noSlash (s : String) : Bool :=
  s.data.all (fun c => !(c == '/'))

/-- Sample uploaded items. -/
def itemA : Item := ⟨"a.wav", [1]⟩

/-- Second sample uploaded item. -/
def itemB : Item := ⟨"b.ogg", [2]⟩

/-! Theorems. -/

/-- C10: convert_to_m4a is total by construction and its triple satisfies the
invariant: on success the output path is present and the error is none, on
failure the output is none and the error carries some message. -/
theorem convert_result_invariant (env : Env) (i d q f : String) (fs : Fs) :
    ((convert_to_m4a env i d q f fs).1.success = true
      ∧ (convert_to_m4a env i d q f fs).1.output = some (output_path_for d i)
      ∧ (convert_to_m4a env i d q f fs).1.error = none)
    ∨ ((convert_to_m4a env i d q f fs).1.success = false
      ∧ (convert_to_m4a env i d q f fs).1.output = none
      ∧ ∃ m, (convert_to_m4a env i d q f fs).1.error = some m) := by
  unfold convert_to_m4a handle_run
  cases h : env.runTool (build_cmd f i q (output_path_for d i)) fs with
  | ok pr =>
      obtain ⟨r, fs2⟩ := pr
      by_cases hrc : r.returncode = 0 <;> simp [h, hrc]
  | error e => simp [h]

/-- C3: the argument list handed to the tool is exactly
tool, -i, input, -c:a, aac, -b:a, bitrate, -movflags, +faststart, -y, output;
the overwrite flag -y is always present; the output path is deterministically
the output directory, a slash, the input base name with its extension
stripped, and .m4a; and convert_to_m4a invokes the tool on precisely this
command line. -/
theorem ffmpeg_cmd_shape (env : Env) (f i d q : String) (fs : Fs) :
    build_cmd f i q (output_path_for d i)
      = [f, "-i", i, "-c:a", "aac", "-b:a", q, "-movflags", "+faststart", "-y",
         pathJoin d (pyStem (basename i) ++ ".m4a")]
  ∧ "-y" ∈ build_cmd f i q (output_path_for d i)
  ∧ output_path_for d i = pathJoin d (pyStem (basename i) ++ ".m4a")
  ∧ convert_to_m4a env i d q f fs
      = handle_run (env.runTool (build_cmd f i q (output_path_for d i)) fs)
          (output_path_for d i) fs := by
  refine ⟨rfl, ?_, rfl, rfl⟩
  simp [build_cmd]

/-- C2 counterexample: a tool invocation that exits with status zero but
creates no file still yields a success triple, while the derived output path
is absent from the filesystem immediately afterwards; so success is not
equivalent to zero exit status conjoined with output presence. -/
theorem convert_success_without_output_file :
    (convert_to_m4a ghostTool "/t/input/song.wav" "/t/output" "192k" "ffmpeg" []).1.success = true
  ∧ fsGet (convert_to_m4a ghostTool "/t/input/song.wav" "/t/output" "192k" "ffmpeg" []).2
      (output_path_for "/t/output" "/t/input/song.wav") = none := by
  exact ⟨rfl, rfl⟩

/-- C2 amended: the invoker returns success exactly when the tool invocation
raises no exception and exits with status zero; presence of the output file
is not checked. On a nonzero exit the diagnostic is the error-stream text,
and on a raised exception it is the exception message. -/
theorem convert_success_iff_rc_zero (env : Env) (i d q f : String) (fs : Fs) :
    ((convert_to_m4a env i d q f fs).1.success = true
      ↔ ∃ r fs2, env.runTool (build_cmd f i q (output_path_for d i)) fs = .ok (r, fs2)
          ∧ r.returncode = 0)
  ∧ (∀ r fs2, env.runTool (build_cmd f i q (output_path_for d i)) fs = .ok (r, fs2) →
      r.returncode ≠ 0 → (convert_to_m4a env i d q f fs).1.error = some r.stderr)
  ∧ (∀ e, env.runTool (build_cmd f i q (output_path_for d i)) fs = .error e →
      (convert_to_m4a env i d q f fs).1.error = some e) := by
  unfold convert_to_m4a handle_run
  cases h : env.runTool (build_cmd f i q (output_path_for d i)) fs with
  | ok pr =>
      obtain ⟨r, fs2⟩ := pr
      by_cases hrc : r.returncode = 0 <;> simp [h, hrc]
  | error e => simp [h]

/-- C2 amended, witness: a raising invocation surfaces its message as the
diagnostic. -/
theorem convert_success_iff_rc_zero_w :
    (convert_to_m4a failTool "in.wav" "out" "192k" "ffmpeg" []).1.error = some "boom" :=
  (convert_success_iff_rc_zero failTool "in.wav" "out" "192k" "ffmpeg" []).2.2 "boom" rfl

/-- The batch loop yields one logged entry per item, whatever the oracle does
at each item. -/
theorem runBatch_length (env : Env) (q f inD outD : String) (total : Nat) :
    ∀ (l : List Item) (i : Nat) (fs : Fs),
      (runBatch env q f inD outD total i fs l).1.length = l.length := by
  intro l
  induction l with
  | nil => intro i fs; rfl
  | cons a t ih => intro i fs; simp [runBatch, ih]

/-- The batch loop over a concatenation is the loop over the first part
followed by the loop over the second part, started at the shifted index and
at the filesystem the first part left. -/
theorem runBatch_append (env : Env) (q f inD outD : String) (total : Nat) :
    ∀ (l1 l2 : List Item) (i : Nat) (fs : Fs),
      runBatch env q f inD outD total i fs (l1 ++ l2)
        = ((runBatch env q f inD outD total i fs l1).1
            ++ (runBatch env q f inD outD total (i + l1.length)
                (runBatch env q f inD outD total i fs l1).2 l2).1,
           (runBatch env q f inD outD total (i + l1.length)
                (runBatch env q f inD outD total i fs l1).2 l2).2) := by
  intro l1
  induction l1 with
  | nil => intro l2 i fs; simp [runBatch]
  | cons a t ih =>
      intro l2 i fs
      have harith : i + 1 + t.length = i + (t.length + 1) := by omega
      simp [runBatch, ih, harith]

/-- The outcomes and the final filesystem of the batch loop do not depend on
the total count or the start index, which only enter the progress values. -/
theorem runBatch_outcomes_irrel (env : Env) (q f inD outD : String) :
    ∀ (l : List Item) (total total2 i j : Nat) (fs : Fs),
      ((runBatch env q f inD outD total i fs l).1.map Prod.snd
          = (runBatch env q f inD outD total2 j fs l).1.map Prod.snd)
      ∧ (runBatch env q f inD outD total i fs l).2
          = (runBatch env q f inD outD total2 j fs l).2 := by
  intro l
  induction l with
  | nil => intro total total2 i j fs; exact ⟨rfl, rfl⟩
  | cons a t ih =>
      intro total total2 i j fs
      have h := ih total total2 (i + 1) (j + 1)
        (processItem env q f inD outD fs a).2
      simp [runBatch, h.1, h.2]

/-- Every outcome list splits its length between the success paths and the
failure messages. -/
theorem outcome_count (os : List Outcome) :
    (os.filterMap successPath).length + (os.filterMap failureMsg).length = os.length := by
  induction os with
  | nil => rfl
  | cons o t ih => cases o <;> simp [successPath, failureMsg] <;> omega

/-- The same count split stated over the logged pairs of the batch loop. -/
theorem outcome_count_log (l : List (ℚ × Outcome)) :
    (l.filterMap (successPath ∘ Prod.snd)).length
      + (l.filterMap (failureMsg ∘ Prod.snd)).length = l.length := by
  induction l with
  | nil => rfl
  | cons e t ih =>
      rcases e with ⟨pr, o⟩
      cases o <;> simp [successPath, failureMsg, Function.comp] <;> omega

/-- C1: for every oracle behaviour, a batch of N uploads produces exactly N
outcomes; the reported success count plus the reported failure count is N;
every outcome is tagged success or failure; and the outcomes of any prefix of
the uploads are exactly the outcomes the orchestrator run on that prefix
alone produces, followed by the outcomes of the remaining items run from the
state the prefix left, so items are processed in input order and no per-item
failure aborts the rest of the batch. -/
theorem batch_outcomes_shape (env : Env) (files : List Item) (q f tempD : String) (fs0 : Fs) :
    (convert_files env files q f tempD fs0).outcomes.length = files.length
  ∧ (convert_files env files q f tempD fs0).converted_files.length
      + (convert_files env files q f tempD fs0).errors.length = files.length
  ∧ (∀ o ∈ (convert_files env files q f tempD fs0).outcomes,
      (∃ p, o = Outcome.success p) ∨ (∃ m, o = Outcome.failure m))
  ∧ ∀ pre post, files = pre ++ post →
      (convert_files env files q f tempD fs0).outcomes
        = (convert_files env pre q f tempD fs0).outcomes
          ++ (runBatch env q f (pathJoin tempD "input") (pathJoin tempD "output")
              files.length pre.length
              (runBatch env q f (pathJoin tempD "input") (pathJoin tempD "output")
                files.length 0 fs0 pre).2 post).1.map Prod.snd := by
  refine ⟨?_, ?_, ?_, ?_⟩
  · simp [convert_files, runBatch_length]
  · simp [convert_files]
    rw [outcome_count_log, runBatch_length]
  · intro o ho
    cases o with
    | success p => exact Or.inl ⟨p, rfl⟩
    | failure m => exact Or.inr ⟨m, rfl⟩
  · intro pre post hsplit
    subst hsplit
    have hirr := (runBatch_outcomes_irrel env q f (pathJoin tempD "input")
      (pathJoin tempD "output") pre (pre.length + post.length) pre.length 0 0 fs0).1
    simp [convert_files, runBatch_append, hirr]

/-- C1 witness: the two-item batch decomposes as the one-item prefix batch
followed by the remaining item run from the state the prefix left. -/
theorem batch_outcomes_shape_w :
    (convert_files ghostTool [itemA, itemB] "192k" "ffmpeg" "/t" []).outcomes
      = (convert_files ghostTool [itemA] "192k" "ffmpeg" "/t" []).outcomes
        ++ (runBatch ghostTool "192k" "ffmpeg" (pathJoin "/t" "input") (pathJoin "/t" "output")
            ([itemA, itemB] : List Item).length ([itemA] : List Item).length
            (runBatch ghostTool "192k" "ffmpeg" (pathJoin "/t" "input") (pathJoin "/t" "output")
              ([itemA, itemB] : List Item).length 0 [] [itemA]).2 [itemB]).1.map Prod.snd :=
  (batch_outcomes_shape ghostTool [itemA, itemB] "192k" "ffmpeg" "/t" []).2.2.2
    [itemA] [itemB] rfl

/-- The progress value logged for the item at position k of the loop started
at index i is (i + k + 1) / total. -/
theorem runBatch_progress (env : Env) (q f inD outD : String) (total : Nat) :
    ∀ (l : List Item) (i : Nat) (fs : Fs) (k : Nat), k < l.length →
      ((runBatch env q f inD outD total i fs l).1.map Prod.fst).get? k
        = some (((i : ℚ) + (k : ℚ) + 1) / (total : ℚ)) := by
  intro l
  induction l with
  | nil => intro i fs k hk; simp at hk
  | cons a t ih =>
      intro i fs k hk
      cases k with
      | zero => simp [runBatch]
      | succ k2 =>
          have hk2 : k2 < t.length := by simpa using hk
          simp only [runBatch, List.map_cons, List.get?_cons_succ]
          rw [ih (i + 1) _ k2 hk2]
          congr 1
          push_cast
          ring

/-- C6: the progress value recorded after the k-th of the N uploaded items is
exactly k / N; the arithmetic of line 183 is embedded as exact rational
arithmetic. -/
theorem progress_exact (env : Env) (files : List Item) (q f tempD : String) (fs0 : Fs)
    (k : Nat) (hk1 : 1 ≤ k) (hk2 : k ≤ files.length) :
    (convert_files env files q f tempD fs0).progressLog.get? (k - 1)
      = some ((k : ℚ) / (files.length : ℚ)) := by
  have hlt : k - 1 < files.length := by omega
  have h := runBatch_progress env q f (pathJoin tempD "input") (pathJoin tempD "output")
    files.length files 0 fs0 (k - 1) hlt
  have hcast : ((k - 1 : Nat) : ℚ) = (k : ℚ) - 1 := by
    rw [Nat.cast_sub hk1, Nat.cast_one]
  show ((runBatch env q f (pathJoin tempD "input") (pathJoin tempD "output")
      files.length 0 fs0 files).1.map Prod.fst).get? (k - 1)
    = some ((k : ℚ) / (files.length : ℚ))
  rw [h, hcast]
  ring_nf

/-- C6 witness: after the first of two items the progress value is one half. -/
theorem progress_exact_w :
    (1 : Nat) ≤ 1 ∧ (1 : Nat) ≤ ([itemA, itemB] : List Item).length
  ∧ (convert_files ghostTool [itemA, itemB] "192k" "ffmpeg" "/t" []).progressLog.get? (1 - 1)
      = some (((1 : Nat) : ℚ) / ((([itemA, itemB] : List Item).length : Nat) : ℚ)) :=
  ⟨by decide, by decide,
    progress_exact ghostTool [itemA, itemB] "192k" "ffmpeg" "/t" [] 1 (by decide) (by decide)⟩

/-- C7: packaging the same path list against the same filesystem twice yields
the same archive, its entry names in order are the base names of the listed
paths that exist, every listed existing file contributes an entry holding
exactly its bytes, and paths no longer present are skipped without affecting
the rest of the archive. -/
theorem zip_packaging_props (fs : Fs) (ps : List String) :
    create_zip_file fs ps = create_zip_file fs ps
  ∧ (create_zip_file fs ps).map Prod.fst
      = (ps.filter (fun p => (fsGet fs p).isSome)).map basename
  ∧ (∀ p b, p ∈ ps → fsGet fs p = some b → (basename p, b) ∈ create_zip_file fs ps)
  ∧ create_zip_file fs (ps.filter (fun p => (fsGet fs p).isSome)) = create_zip_file fs ps := by
  refine ⟨rfl, ?_, ?_, ?_⟩
  · induction ps with
    | nil => rfl
    | cons a t ih =>
        cases h : fsGet fs a <;>
          simp [create_zip_file, List.filterMap_cons, List.filter_cons, h] at ih ⊢ <;>
          exact ih
  · intro p b hp hb
    have hf : (fsGet fs p).map (fun b2 => (basename p, b2)) = some (basename p, b) := by
      rw [hb]; rfl
    exact List.mem_filterMap.2 ⟨p, hp, hf⟩
  · induction ps with
    | nil => rfl
    | cons a t ih =>
        cases h : fsGet fs a <;>
          simp [create_zip_file, List.filterMap_cons, List.filter_cons, h] at ih ⊢ <;>
          exact ih

/-- C7 witness: an existing listed file contributes the entry with its base
name and exact bytes. -/
theorem zip_packaging_props_w :
    (basename "o/a.m4a", ([5] : Bytes)) ∈ create_zip_file [("o/a.m4a", [5])] ["o/a.m4a"] :=
  (zip_packaging_props [("o/a.m4a", [5])] ["o/a.m4a"]).2.2.1 "o/a.m4a" [5]
    (by decide) (by decide)

/-- Looking up a path under the temp directory in the cleaned filesystem
finds nothing. -/
theorem fsGet_cleanup (d p : String) (h : underDir d p = true) :
    ∀ fs : Fs, fsGet (cleanupTempDir d fs) p = none := by
  intro fs
  induction fs with
  | nil => rfl
  | cons e t ih =>
      by_cases he : underDir d e.1 = true
      · simp only [cleanupTempDir, List.filter_cons, he, Bool.not_true] at ih ⊢
        simpa using ih
      · have hne : e.1 ≠ p := by
          intro hcontra
          rw [hcontra] at he
          exact he h
        have hbeq : (e.1 == p) = false := beq_eq_false_iff_ne.mpr hne
        simp only [cleanupTempDir, List.filter_cons] at ih ⊢
        simp only [he]
        simpa [fsGet, List.find?, hbeq] using ih

/-- C9: after the batch session exits its scoped temporary directory, no path
under that directory remains in the filesystem, for every oracle behaviour
and every exit of the block; the removal models the exit action of
tempfile.TemporaryDirectory, which runs whether the block completes or
raises. -/
theorem temp_cleanup_complete (env : Env) (files : List Item) (q f temp_dir : String)
    (fs0 : Fs) (p : String) (h : underDir temp_dir p = true) :
    fsGet (convert_files_session env files q f temp_dir fs0).fs p = none := by
  show fsGet (cleanupTempDir temp_dir (convert_files env files q f temp_dir fs0).fs) p = none
  exact fsGet_cleanup temp_dir p h _

/-- C9 witness: the output file a conforming tool wrote under the temp
directory is gone after the session. -/
theorem temp_cleanup_complete_w :
    underDir "/t" "/t/output/a.m4a" = true
  ∧ fsGet (convert_files_session (goodTool (fun _ => [9])) [itemA] "192k" "ffmpeg" "/t" []).fs
      "/t/output/a.m4a" = none :=
  ⟨by decide, temp_cleanup_complete (goodTool (fun _ => [9])) [itemA] "192k" "ffmpeg" "/t" []
    "/t/output/a.m4a" (by decide)⟩

/-- C5: check_ffmpeg returns exactly the first candidate of its fixed ordered
list whose version-query invocation succeeds, none when no candidate works;
and when none works, main stops in the fatal tool-missing state with the
installation guidance, before the upload and convert surface, so no
conversion is attempted. -/
theorem tool_locator_first_match (ok : String → Bool) (env : Env) (files : List Item)
    (q temp_dir : String) (fs0 : Fs) :
    check_ffmpeg ok
      = (if ok "ffmpeg" then some "ffmpeg"
         else if ok "../ffmpeg.exe" then some "../ffmpeg.exe"
         else if ok "../ffmpeg" then some "../ffmpeg"
         else if ok "../ffmpeg/bin/ffmpeg.exe" then some "../ffmpeg/bin/ffmpeg.exe"
         else if ok "../ffmpeg/bin/ffmpeg" then some "../ffmpeg/bin/ffmpeg"
         else none)
  ∧ ((∀ c ∈ ffmpeg_paths, ok c = false) →
      main_run ok env files q temp_dir fs0
        = MainResult.fatalToolMissing no_ffmpeg_error install_guidance) := by
  constructor
  · simp only [check_ffmpeg, ffmpeg_paths]
    cases h1 : ok "ffmpeg" <;> cases h2 : ok "../ffmpeg.exe" <;> cases h3 : ok "../ffmpeg"
      <;> cases h4 : ok "../ffmpeg/bin/ffmpeg.exe" <;> cases h5 : ok "../ffmpeg/bin/ffmpeg"
      <;> simp [List.find?, h1, h2, h3, h4, h5]
  · intro hall
    have h1 := hall "ffmpeg" (by simp [ffmpeg_paths])
    have h2 := hall "../ffmpeg.exe" (by simp [ffmpeg_paths])
    have h3 := hall "../ffmpeg" (by simp [ffmpeg_paths])
    have h4 := hall "../ffmpeg/bin/ffmpeg.exe" (by simp [ffmpeg_paths])
    have h5 := hall "../ffmpeg/bin/ffmpeg" (by simp [ffmpeg_paths])
    simp [main_run, check_ffmpeg, ffmpeg_paths, List.find?, h1, h2, h3, h4, h5]

/-- C5 witness: with every candidate failing, the workflow ends in the fatal
state and runs no batch. -/
theorem tool_locator_first_match_w :
    main_run (fun _ => false) ghostTool [] "192k" "/t" []
      = MainResult.fatalToolMissing no_ffmpeg_error install_guidance :=
  (tool_locator_first_match (fun _ => false) ghostTool [] "192k" "/t" []).2
    (fun _ _ => rfl)

/-- When every listed path exists, the archive entry names are exactly the
base names of the listed paths, in order. -/
theorem zip_names_all_present (fs : Fs) :
    ∀ ps : List String, (∀ p ∈ ps, (fsGet fs p).isSome = true) →
      (create_zip_file fs ps).map Prod.fst = ps.map basename := by
  intro ps
  induction ps with
  | nil => intro _; rfl
  | cons a t ih =>
      intro h
      have ha := h a (by simp)
      cases hg : fsGet fs a with
      | none => rw [hg] at ha; simp at ha
      | some b =>
          have ht := ih (fun p hp => h p (by simp [hp]))
          simp [create_zip_file, List.filterMap_cons, hg] at ht ⊢
          exact ht

/-- C4: after the batch, an empty converted list yields no download; exactly
one converted file is offered raw under its base name with its bytes and the
MPEG-4 audio media type; two or more converted files are offered as the
archive converted_audio_files.zip with the ZIP media type, packaged from
exactly the converted paths, and when all of them exist the entry names are
exactly their base names; failed items contribute nothing because only
success paths reach converted_files. -/
theorem download_dispatch (env : Env) (files : List Item) (q f tempD : String) (fs0 : Fs) :
    ((convert_files env files q f tempD fs0).converted_files = [] →
        downloadOf (convert_files env files q f tempD fs0) = Download.noDownload)
  ∧ (∀ p b, (convert_files env files q f tempD fs0).converted_files = [p] →
        fsGet (convert_files env files q f tempD fs0).fs p = some b →
        downloadOf (convert_files env files q f tempD fs0)
          = Download.single (basename p) b "audio/mp4")
  ∧ (∀ p1 p2 rest, (convert_files env files q f tempD fs0).converted_files = p1 :: p2 :: rest →
        downloadOf (convert_files env files q f tempD fs0)
          = Download.zipArchive "converted_audio_files.zip"
              (create_zip_file (convert_files env files q f tempD fs0).fs
                (convert_files env files q f tempD fs0).converted_files)
              "application/zip")
  ∧ ((∀ p ∈ (convert_files env files q f tempD fs0).converted_files,
        (fsGet (convert_files env files q f tempD fs0).fs p).isSome = true) →
      (create_zip_file (convert_files env files q f tempD fs0).fs
          (convert_files env files q f tempD fs0).converted_files).map Prod.fst
        = (convert_files env files q f tempD fs0).converted_files.map basename) := by
  refine ⟨?_, ?_, ?_, ?_⟩
  · intro h; simp [downloadOf, h]
  · intro p b h hb; simp [downloadOf, h, optBytes, hb]
  · intro p1 p2 rest h; simp [downloadOf, h]
  · intro h; exact zip_names_all_present _ _ h

/-- C4 witness: two successes are offered as the zip archive packaged from
the converted paths. -/
theorem download_dispatch_w :
    downloadOf (convert_files (goodTool (fun _ => [9])) [itemA, itemB] "192k" "ffmpeg" "/t" [])
      = Download.zipArchive "converted_audio_files.zip"
          (create_zip_file
            (convert_files (goodTool (fun _ => [9])) [itemA, itemB] "192k" "ffmpeg" "/t" []).fs
            (convert_files (goodTool (fun _ => [9])) [itemA, itemB] "192k" "ffmpeg"
              "/t" []).converted_files)
          "application/zip" :=
  (download_dispatch (goodTool (fun _ => [9])) [itemA, itemB] "192k" "ffmpeg" "/t" []).2.2.1
    "/t/output/a.m4a" "/t/output/b.m4a" [] (by decide)

/-- Folding the basename step over slash-free characters appends them to the
accumulator. -/
theorem foldl_basename_noSlash (cs : List Char) :
    ∀ acc : List Char, (∀ c ∈ cs, c ≠ '/') →
      cs.foldl (fun acc c => if c = '/' then [] else acc ++ [c]) acc = acc ++ cs := by
  induction cs with
  | nil => intro acc _; simp
  | cons c t ih =>
      intro acc h
      have hc : c ≠ '/' := h c (by simp)
      simp only [List.foldl_cons, if_neg hc]
      rw [ih (acc ++ [c]) (fun x hx => h x (by simp [hx]))]
      simp

/-- Appending strings concatenates their character data. -/
theorem str_data_append (s t : String) : (s ++ t).data = s.data ++ t.data := by
  cases s; cases t; rfl

/-- The base name of a directory joined with a slash-free file name is the
file name itself. -/
theorem basename_pathJoin (dir file : String) (h : noSlash file = true) :
    basename (pathJoin dir file) = file := by
  obtain ⟨fd⟩ := file
  have hns : ∀ c ∈ fd, c ≠ '/' := by
    intro c hc
    have hx := List.all_eq_true.1 h c hc
    simpa using hx
  have hdata : (pathJoin dir ⟨fd⟩).data = dir.data ++ '/' :: fd := by
    simp [pathJoin, str_data_append]
  unfold basename
  rw [hdata, List.foldl_append, List.foldl_cons, if_pos rfl,
    foldl_basename_noSlash fd [] hns]
  simp

/-- A conforming-tool iteration: the upload is stored at its temp input path,
the tool exits zero writing the oracle bytes to the derived output path, and
the outcome is success with that path. -/
theorem processItem_goodTool (out : List String → Bytes) (q tool inD outD : String)
    (fs : Fs) (it : Item) :
    processItem (goodTool out) q tool inD outD fs it
      = (Outcome.success (output_path_for outD (pathJoin inD it.name)),
         fsSet (fsSet fs (pathJoin inD it.name) it.data)
           (output_path_for outD (pathJoin inD it.name))
           (out (build_cmd tool (pathJoin inD it.name) q
             (output_path_for outD (pathJoin inD it.name))))) := rfl

/-- C8: when the second of two uploads has the same extension-stripped name
as the first, both conversions derive the same output path, both succeed with
no error outcome, and the file finally stored at that single path holds the
bytes of the later conversion: the later output silently overwrites the
earlier one and no distinct path is generated. -/
theorem name_collision_overwrite (out : List String → Bytes) (a b : Item)
    (q tool tempD : String) (fs0 : Fs)
    (ha : noSlash a.name = true) (hb : noSlash b.name = true)
    (hstem : pyStem a.name = pyStem b.name) :
    ∃ p,
      (convert_files (goodTool out) [a, b] q tool tempD fs0).outcomes
          = [Outcome.success p, Outcome.success p]
      ∧ (convert_files (goodTool out) [a, b] q tool tempD fs0).errors = []
      ∧ fsGet (convert_files (goodTool out) [a, b] q tool tempD fs0).fs p
          = some (out (build_cmd tool (pathJoin (pathJoin tempD "input") b.name) q p)) := by
  have hpa : output_path_for (pathJoin tempD "output") (pathJoin (pathJoin tempD "input") a.name)
      = output_path_for (pathJoin tempD "output") (pathJoin (pathJoin tempD "input") b.name) := by
    unfold output_path_for
    rw [basename_pathJoin _ _ ha, basename_pathJoin _ _ hb, hstem]
  refine ⟨output_path_for (pathJoin tempD "output") (pathJoin (pathJoin tempD "input") b.name),
    ?_, ?_, ?_⟩
  · simp [convert_files, runBatch, processItem_goodTool, successPath, hpa]
  · simp [convert_files, runBatch, processItem_goodTool, failureMsg]
  · simp only [convert_files, runBatch, processItem_goodTool]
    simp [fsGet, fsSet, List.find?]

/-- C8 witness: song.wav and song.mp3 collide on the stem song, both succeed
on the same output path, and the later bytes are the ones stored there. -/
theorem name_collision_overwrite_w :
    noSlash "song.wav" = true ∧ noSlash "song.mp3" = true
  ∧ pyStem "song.wav" = pyStem "song.mp3"
  ∧ ∃ p,
      (convert_files (goodTool (fun _ => [9])) [⟨"song.wav", [1]⟩, ⟨"song.mp3", [2]⟩]
          "192k" "ffmpeg" "/t" []).outcomes = [Outcome.success p, Outcome.success p]
      ∧ (convert_files (goodTool (fun _ => [9])) [⟨"song.wav", [1]⟩, ⟨"song.mp3", [2]⟩]
          "192k" "ffmpeg" "/t" []).errors = []
      ∧ fsGet (convert_files (goodTool (fun _ => [9])) [⟨"song.wav", [1]⟩, ⟨"song.mp3", [2]⟩]
          "192k" "ffmpeg" "/t" []).fs p
          = some ((fun _ => ([9] : Bytes)) (build_cmd "ffmpeg"
              (pathJoin (pathJoin "/t" "input") "song.mp3") "192k" p)) :=
  ⟨by decide, by decide, by decide,
    name_collision_overwrite (fun _ => [9]) ⟨"song.wav", [1]⟩ ⟨"song.mp3", [2]⟩
      "192k" "ffmpeg" "/t" [] (by decide) (by decide) (by decide)⟩

end AudioConv
